import Mathlib

/-!
Verification of the marian optimizer core (`src/optimizers/optimizers.h`).

The header file in the repository contains the optimizer class hierarchy:
`OptimizerBase` (learning rate, optional clipper, clip-then-update
orchestration, lifecycle observer methods, save/load protocol skeleton) and
the three algorithms `Sgd`, `Adagrad`, `Adam` (member fields, `parseParams`
bodies, declarations of `updateImpl` / `resetStats` / `load` / `save`).
The bodies of `updateImpl`, `resetStats`, `load` and `save` live in
`optimizers.cpp`, which is not part of the available sources; those are
modelled from the specification (each such definition says so in its doc
comment).  Machine floats are idealised as real numbers.
-/

namespace Marian

/-- Modelled from the interface of `training/training_state.h` used by
`optimizers.h`: the lifecycle methods read only `state.eta` and
`state.reset`. -/
structure TrainingState where
  eta : ℝ
  reset : Bool

/-- The virtual methods a concrete algorithm supplies to `OptimizerBase`
(`updateImpl`, `parseParams`, `resetStats`), with the subclass's member
state made explicit as a value of type `σ`.  `updateImpl` receives the
base-class learning rate `eta_` and returns the updated parameter buffer
together with the updated member state. -/
structure Algorithm (σ : Type) where
  updateImpl : ℝ → σ → List ℝ → List ℝ → List ℝ × σ
  parseParams : List ℝ → σ → σ
  resetStats : σ → σ

/-- `OptimizerBase`'s own fields: learning rate `eta_` and the optional
clipper `clipper_`, plus the subclass state `st`.  A clipper is consumed
through its single capability "clip this gradient buffer in place",
modelled as a function on the buffer. -/
structure Optimizer (σ : Type) where
  eta : ℝ
  clipper : Option (List ℝ → List ℝ)
  st : σ

/-- `OptimizerBase::update(Tensor params, Tensor grads)`:
`if(clipper_) clipper_->clip(grads); updateImpl(params, grads);`.
The in-place mutation of `params` and `grads` is made explicit by
returning the new parameter buffer, the (possibly clipped) gradient
buffer, and the optimizer with its updated member state. -/
def update {σ : Type} (A : Algorithm σ) (o : Optimizer σ)
    (params grads : List ℝ) : List ℝ × List ℝ × Optimizer σ :=
  let grads := match o.clipper with
    | some c => c grads
    | none => grads
  let r := A.updateImpl o.eta o.st params grads
  (r.1, grads, { o with st := r.2 })

/-- `OptimizerBase::init(TrainingState& state)`: `eta_ = state.eta;`. -/
def init {σ : Type} (o : Optimizer σ) (ts : TrainingState) : Optimizer σ :=
  { o with eta := ts.eta }

/-- `OptimizerBase::actAfterLoaded(TrainingState& state)`:
`eta_ = state.eta;`. -/
def actAfterLoaded {σ : Type} (o : Optimizer σ) (ts : TrainingState) :
    Optimizer σ :=
  { o with eta := ts.eta }

/-- `OptimizerBase::actAfterEpoch(TrainingState& state)`:
`eta_ = state.eta; if(state.reset) resetStats();`. -/
def actAfterEpoch {σ : Type} (A : Algorithm σ) (o : Optimizer σ)
    (ts : TrainingState) : Optimizer σ :=
  let o := { o with eta := ts.eta }
  if ts.reset then { o with st := A.resetStats o.st } else o

/-- `OptimizerBase::actAfterBatches(TrainingState& state)`: identical body
to `actAfterEpoch`. -/
def actAfterBatches {σ : Type} (A : Algorithm σ) (o : Optimizer σ)
    (ts : TrainingState) : Optimizer σ :=
  let o := { o with eta := ts.eta }
  if ts.reset then { o with st := A.resetStats o.st } else o

/-- `OptimizerBase::actAfterStalled(TrainingState& state)`: identical body
to `actAfterEpoch`. -/
def actAfterStalled {σ : Type} (A : Algorithm σ) (o : Optimizer σ)
    (ts : TrainingState) : Optimizer σ :=
  let o := { o with eta := ts.eta }
  if ts.reset then { o with st := A.resetStats o.st } else o

/-- `OptimizerBase::setParams`: `parseParams(params);`. -/
def setParams {σ : Type} (A : Algorithm σ) (o : Optimizer σ)
    (ps : List ℝ) : Optimizer σ :=
  { o with st := A.parseParams ps o.st }

/-- Three-way `zipWith`, used to write the per-element update rules that
combine the parameter buffer, the gradient buffer and an auxiliary
buffer. -/
def zipWith3 {α β γ δ : Type} (f : α → β → γ → δ) :
    List α → List β → List γ → List δ
  | a :: as, b :: bs, c :: cs => f a b c :: zipWith3 f as bs cs
  | _, _, _ => []

/-! ### Sgd -/

/-- Modelled from the spec: the body of `Sgd::updateImpl` is in
`optimizers.cpp`, not among the sources; §4.3 gives the per-element rule
`param -= eta * grad`.  `Sgd` has no auxiliary state (state type `Unit`). -/
def sgdUpdateImpl (eta : ℝ) (s : Unit) (params grads : List ℝ) :
    List ℝ × Unit :=
  (List.zipWith (fun p g => p - eta * g) params grads, s)

/-- `Sgd::parseParams` has an empty body in the header. -/
def sgdParseParams (_ps : List ℝ) (s : Unit) : Unit := s

/-- `Sgd::resetStats` has an empty body in the header. -/
def sgdResetStats (s : Unit) : Unit := s

/-- The `Sgd` virtual table. -/
def sgdAlg : Algorithm Unit := ⟨sgdUpdateImpl, sgdParseParams, sgdResetStats⟩

/-! ### Adagrad -/

/-- `Adagrad`'s member state: `eps_ = 1e-8f` and the lazily allocated
accumulator tensor `gt_` (`none` until first use, spec §3: zero-initialised
to the parameter shard's shape on first use). -/
structure AdagradState where
  eps : ℝ := 1e-8
  gt : Option (List ℝ) := none

/-- Modelled from the spec: the body of `Adagrad::updateImpl` is in
`optimizers.cpp`, not among the sources; §4.4 gives the per-element rule
`gt += grad^2; param -= eta * grad / (sqrt(gt) + eps)`, with `gt` lazily
allocated zero-initialised at the parameter shard's shape. -/
noncomputable def adagradUpdateImpl (eta : ℝ) (s : AdagradState)
    (params grads : List ℝ) : List ℝ × AdagradState :=
  let gt0 := s.gt.getD (List.replicate params.length 0)
  let gt1 := List.zipWith (fun acc g => acc + g ^ 2) gt0 grads
  let params1 :=
    zipWith3 (fun p g acc => p - eta * g / (Real.sqrt acc + s.eps))
      params grads gt1
  (params1, { s with gt := some gt1 })

/-- Modelled from the spec: the body of `Adagrad::resetStats` is in
`optimizers.cpp`, not among the sources; §4.4: "zero `gt`" (a no-op when
`gt` was never allocated). -/
def adagradResetStats (s : AdagradState) : AdagradState :=
  { s with gt := s.gt.map (fun l => List.replicate l.length 0) }

/-- `Adagrad::parseParams`: `if(params.size() > 0) eps_ = params[0];`. -/
def adagradParseParams (ps : List ℝ) (s : AdagradState) : AdagradState :=
  if h : 0 < ps.length then { s with eps := ps[0] } else s

/-- The `Adagrad` virtual table. -/
noncomputable def adagradAlg : Algorithm AdagradState :=
  ⟨adagradUpdateImpl, adagradParseParams, adagradResetStats⟩

/-! ### Adam -/

/-- `Adam`'s member state: hyperparameters `beta1_ = 0.9f`,
`beta2_ = 0.999f`, `eps_ = 1e-8f`, `w_ = 0.0f`, the step counter `t_`
(initialised to `0` by the constructor), and the lazily allocated moment
tensors `mt_`, `vt_`. -/
structure AdamState where
  beta1 : ℝ := 0.9
  beta2 : ℝ := 0.999
  eps : ℝ := 1e-8
  w : ℝ := 0
  t : ℕ := 0
  mt : Option (List ℝ) := none
  vt : Option (List ℝ) := none

/-- Modelled from the spec: the body of `Adam::updateImpl` is in
`optimizers.cpp`, not among the sources; §4.5 gives, per call, `t += 1`
and per element
`mt = beta1*mt + (1-beta1)*grad`, `vt = beta2*vt + (1-beta2)*grad^2`,
`mHat = mt / (1 - beta1^t)`, `vHat = vt / (1 - beta2^t)`,
`param -= eta * mHat / (sqrt(vHat) + eps) + eta * weightDecay * param`,
with `mt`, `vt` lazily allocated zero-initialised at the parameter
shard's shape. -/
noncomputable def adamUpdateImpl (eta : ℝ) (s : AdamState)
    (params grads : List ℝ) : List ℝ × AdamState :=
  let t1 := s.t + 1
  let mt0 := s.mt.getD (List.replicate params.length 0)
  let vt0 := s.vt.getD (List.replicate params.length 0)
  let mt1 := List.zipWith (fun m g => s.beta1 * m + (1 - s.beta1) * g) mt0 grads
  let vt1 :=
    List.zipWith (fun v g => s.beta2 * v + (1 - s.beta2) * g ^ 2) vt0 grads
  let d1 := 1 - s.beta1 ^ t1
  let d2 := 1 - s.beta2 ^ t1
  let params1 :=
    zipWith3
      (fun p m v =>
        p - (eta * (m / d1) / (Real.sqrt (v / d2) + s.eps) + eta * s.w * p))
      params mt1 vt1
  (params1, { s with t := t1, mt := some mt1, vt := some vt1 })

/-- Modelled from the spec: the body of `Adam::resetStats` is in
`optimizers.cpp`, not among the sources; §4.5: "zero `mt`, `vt`; reset `t`
to 0" (a no-op on the tensors when they were never allocated). -/
def adamResetStats (s : AdamState) : AdamState :=
  { s with
    t := 0
    mt := s.mt.map (fun l => List.replicate l.length 0)
    vt := s.vt.map (fun l => List.replicate l.length 0) }

/-- `Adam::parseParams`: positional overwrite of `beta1_`, `beta2_`,
`eps_`, `w_`, each guarded by `params.size() > k`. -/
def adamParseParams (ps : List ℝ) (s : AdamState) : AdamState :=
  let s := if h : 0 < ps.length then { s with beta1 := ps[0] } else s
  let s := if h : 1 < ps.length then { s with beta2 := ps[1] } else s
  let s := if h : 2 < ps.length then { s with eps := ps[2] } else s
  let s := if h : 3 < ps.length then { s with w := ps[3] } else s
  s

/-- The `Adam` virtual table. -/
noncomputable def adamAlg : Algorithm AdamState :=
  ⟨adamUpdateImpl, adamParseParams, adamResetStats⟩

/-- Bias-corrected first moment `mHat = mt / (1 - beta1^t)` of an `Adam`
state (spec §4.5 and glossary), element-wise over the allocated `mt`. -/
noncomputable def adamMHat (s : AdamState) : List ℝ :=
  (s.mt.getD []).map (fun m => m / (1 - s.beta1 ^ s.t))

/-- Bias-corrected second moment `vHat = vt / (1 - beta2^t)` of an `Adam`
state (spec §4.5 and glossary), element-wise over the allocated `vt`. -/
noncomputable def adamVHat (s : AdamState) : List ℝ :=
  (s.vt.getD []).map (fun v => v / (1 - s.beta2 ^ s.t))

/-! ### Distributed state codec -/

/-- Modelled from the spec: the gather side of the save/load protocol
(bodies of `Adagrad::save` / `Adam::save` are in `optimizers.cpp`, not
among the sources); §4.4: gather each device shard's buffer keyed by shard
index and concatenate in shard order into one flat sequence. -/
def gatherShards (shards : List (List ℝ)) : List ℝ := shards.flatten

/-- Modelled from the spec: the scatter side of the save/load protocol
(bodies of `Adagrad::load` / `Adam::load` are in `optimizers.cpp`, not
among the sources); §4.4: re-split the persisted flat sequence into
sub-ranges matching each shard's expected length, in shard order. -/
def scatterShards : List ℝ → List ℕ → List (List ℝ)
  | _, [] => []
  | flat, n :: ns => flat.take n :: scatterShards (flat.drop n) ns

/-- Modelled from the spec: `Adagrad::save` persists the concatenation of
the per-shard `gt` buffers under the given name. -/
def adagradSave (gts : List (List ℝ)) : List ℝ := gatherShards gts

/-- Modelled from the spec: `Adagrad::load` re-splits the persisted flat
sequence into sub-ranges matching each shard's expected length and
repopulates each shard's `gt`. -/
def adagradLoad (flat : List ℝ) (lens : List ℕ) : List (List ℝ) :=
  scatterShards flat lens

/-- What `Adam` persists under one name: the concatenated `mt` buffer, the
concatenated `vt` buffer, and the scalar step counter `t`, persisted
once. -/
structure AdamPersisted where
  mt : List ℝ
  vt : List ℝ
  t : ℕ

/-- Modelled from the spec: `Adam::save` follows the same gather discipline
as `Adagrad::save` but covers the two buffers `mt`, `vt` plus the scalar
`t`. -/
def adamSave (mts vts : List (List ℝ)) (t : ℕ) : AdamPersisted :=
  ⟨gatherShards mts, gatherShards vts, t⟩

/-- Modelled from the spec: `Adam::load` scatters the two persisted buffers
back into per-shard sub-ranges and replicates the scalar `t` identically to
every shard (it is not partitioned). -/
def adamLoad (p : AdamPersisted) (lens : List ℕ) :
    List (List ℝ) × List (List ℝ) × List ℕ :=
  (scatterShards p.mt lens, scatterShards p.vt lens,
   List.replicate lens.length p.t)

/-- Persistence failure modes of `load` (spec §7): the storage layer has
nothing under the requested name, or the persisted sequence does not match
the shard layout. -/
inductive LoadError where
  | storageUnavailable
  | corruptPersistedSequence
deriving DecidableEq

/-- Modelled from the spec: a `load` whose failure modes are explicit
(§7: storage unavailable, or a corrupt/undersized persisted sequence whose
total length does not match the sum of the current shard lengths, is
surfaced to the caller; §9 open question resolved as a hard failure). -/
def loadChecked (stored : Option (List ℝ)) (lens : List ℕ) :
    Except LoadError (List (List ℝ)) :=
  match stored with
  | none => .error .storageUnavailable
  | some flat =>
    if flat.length = lens.sum then .ok (scatterShards flat lens)
    else .error .corruptPersistedSequence

/-! ### Helper lemmas -/

theorem scatterShards_append (l rest : List ℝ) (ns : List ℕ) :
    scatterShards (l ++ rest) (l.length :: ns) =
      l :: scatterShards rest ns := by
  simp [scatterShards, List.take_left, List.drop_left]

theorem scatterShards_join (shards : List (List ℝ)) :
    scatterShards (gatherShards shards) (shards.map List.length) = shards := by
  induction shards with
  | nil => rfl
  | cons s ss ih =>
    simp only [gatherShards, List.flatten_cons, List.map_cons] at *
    rw [scatterShards_append, ih]

theorem scatterShards_length_eq (flat : List ℝ) (lens : List ℕ)
    (h : flat.length = lens.sum) :
    (scatterShards flat lens).map List.length = lens := by
  induction lens generalizing flat with
  | nil => rfl
  | cons n ns ih =>
    simp only [List.sum_cons] at h
    have hn : n ≤ flat.length := by omega
    simp only [scatterShards, List.map_cons, List.length_take]
    rw [min_eq_left hn, ih (flat.drop n) (by simp [List.length_drop]; omega)]

theorem join_scatterShards (flat : List ℝ) (lens : List ℕ)
    (h : flat.length = lens.sum) :
    (scatterShards flat lens).flatten = flat := by
  induction lens generalizing flat with
  | nil => simpa [scatterShards] using (List.length_eq_zero.mp h)
  | cons n ns ih =>
    simp only [List.sum_cons] at h
    simp only [scatterShards, List.flatten_cons]
    rw [ih (flat.drop n) (by simp [List.length_drop]; omega),
      List.take_append_drop]

theorem zipWith_replicate_right {α β γ : Type} (f : α → β → γ)
    (l : List α) (b : β) :
    List.zipWith f l (List.replicate l.length b) = l.map (fun a => f a b) := by
  induction l with
  | nil => rfl
  | cons a as ih => simp [List.replicate, ih]

theorem zipWith_replicate_both {α β γ : Type} (f : α → β → γ) (n : ℕ)
    (a : α) (b : β) :
    List.zipWith f (List.replicate n a) (List.replicate n b) =
      List.replicate n (f a b) := by
  induction n with
  | zero => rfl
  | succ n ih => simp [List.replicate_succ, ih]

/-- Running `k` consecutive `update` calls of the Adagrad algorithm with a
fixed gradient buffer, threading the parameter buffer and the member state
(spec §8's consecutive-steps scenario). -/
noncomputable def adagradIterate (eta : ℝ) (grads : List ℝ) :
    ℕ → List ℝ × AdagradState → List ℝ × AdagradState
  | 0, ps => ps
  | k + 1, ps => adagradIterate eta grads k (adagradUpdateImpl eta ps.2 ps.1 grads)

/-! ### Claims -/

/-- C2: for Adam with default hyperparameters, after exactly one `update`
call with a constant gradient `g` on a freshly constructed instance (step
counter starting at 0 and incremented once by the call), the bias-corrected
moments satisfy `mHat = g` and `vHat = g^2` element-wise. -/
theorem adam_first_step_bias_correction (eta g : ℝ) (params : List ℝ) :
    (update adamAlg ⟨eta, none, {}⟩ params
        (List.replicate params.length g)).2.2.st.t = 1 ∧
    adamMHat (update adamAlg ⟨eta, none, {}⟩ params
        (List.replicate params.length g)).2.2.st =
      List.replicate params.length g ∧
    adamVHat (update adamAlg ⟨eta, none, {}⟩ params
        (List.replicate params.length g)).2.2.st =
      List.replicate params.length (g ^ 2) := by
  have hst :
      (update adamAlg ⟨eta, none, {}⟩ params
        (List.replicate params.length g)).2.2.st =
      { beta1 := 0.9, beta2 := 0.999, eps := 1e-8, w := 0, t := 1,
        mt := some (List.replicate params.length
          (0.9 * 0 + (1 - 0.9) * g)),
        vt := some (List.replicate params.length
          (0.999 * 0 + (1 - 0.999) * g ^ 2)) } := by
    simp [update, adamAlg, adamUpdateImpl, zipWith_replicate_both]
  refine ⟨by rw [hst], ?_, ?_⟩
  · rw [hst]
    simp only [adamMHat, Option.getD_some, List.map_replicate]
    congr 1
    norm_num
  · rw [hst]
    simp only [adamVHat, Option.getD_some, List.map_replicate]
    congr 1
    norm_num

/-- C1: for every call to `update(params, grads)` on any optimizer, a
configured clipper is applied to `grads` in place before the
algorithm-specific numeric update runs — the result equals running
`updateImpl` on `params` with the clipped gradients; with no clipper
configured, `updateImpl` runs on the unmodified gradients. -/
theorem update_clips_before_updateImpl {σ : Type} (A : Algorithm σ)
    (eta : ℝ) (st : σ) (c : List ℝ → List ℝ) (params grads : List ℝ) :
    update A ⟨eta, some c, st⟩ params grads =
      ((A.updateImpl eta st params (c grads)).1, c grads,
        ⟨eta, some c, (A.updateImpl eta st params (c grads)).2⟩) ∧
    update A ⟨eta, none, st⟩ params grads =
      ((A.updateImpl eta st params grads).1, grads,
        ⟨eta, none, (A.updateImpl eta st params grads).2⟩) :=
  ⟨rfl, rfl⟩

/-- C10: the lifecycle notifications `init` and `actAfterLoaded` only adopt
`state.eta` and never clear auxiliary state, even when `state.reset` is set
in the supplied `TrainingState` (the equalities hold for every `ts`,
including those with `ts.reset = true`, and leave `st` and `clipper`
untouched). -/
theorem init_actAfterLoaded_adopt_eta_only {σ : Type} (o : Optimizer σ)
    (ts : TrainingState) :
    init o ts = { o with eta := ts.eta } ∧
    actAfterLoaded o ts = { o with eta := ts.eta } :=
  ⟨rfl, rfl⟩

/-- C5: `actAfterEpoch`, `actAfterBatches` and `actAfterStalled` adopt
`state.eta` and apply `resetStats` exactly when `state.reset` is set,
touching nothing else of the optimizer; for the stateful algorithms,
`resetStats` zeroes the auxiliary buffers (a no-op when never allocated)
and preserves the hyperparameters. -/
theorem lifecycle_eta_and_conditional_reset {σ : Type} (A : Algorithm σ)
    (o : Optimizer σ) (ts : TrainingState) (sa : AdagradState)
    (sm : AdamState) :
    (actAfterEpoch A o ts =
      { o with eta := ts.eta,
               st := if ts.reset then A.resetStats o.st else o.st }) ∧
    (actAfterBatches A o ts =
      { o with eta := ts.eta,
               st := if ts.reset then A.resetStats o.st else o.st }) ∧
    (actAfterStalled A o ts =
      { o with eta := ts.eta,
               st := if ts.reset then A.resetStats o.st else o.st }) ∧
    (adagradResetStats sa).gt
      = sa.gt.map (fun l => List.replicate l.length 0) ∧
    (adagradResetStats sa).eps = sa.eps ∧
    adagradResetStats { eps := sa.eps, gt := none } =
      { eps := sa.eps, gt := none } ∧
    (adamResetStats sm).mt = sm.mt.map (fun l => List.replicate l.length 0) ∧
    (adamResetStats sm).vt = sm.vt.map (fun l => List.replicate l.length 0) ∧
    (adamResetStats sm).t = 0 ∧
    (adamResetStats sm).beta1 = sm.beta1 ∧
    (adamResetStats sm).beta2 = sm.beta2 ∧
    (adamResetStats sm).eps = sm.eps ∧
    (adamResetStats sm).w = sm.w := by
  refine ⟨?_, ?_, ?_, rfl, rfl, rfl, rfl, rfl, rfl, rfl, rfl, rfl, rfl⟩ <;>
    cases h : ts.reset <;>
      simp [actAfterEpoch, actAfterBatches, actAfterStalled, h]

/-- C3: Adagrad with `eta = 0.1`, `eps = 1e-8`, a single parameter
initialized to `1` and gradient `2` on each of 3 consecutive `update`
calls: `gt` equals 4 after step 1 and 12 after step 3, the parameter
strictly decreases on every step, and the magnitude of each step's
decrease is strictly smaller than the previous step's. -/
theorem adagrad_scenario :
    (adagradIterate 0.1 [2] 1 ([1], {})).2.gt = some [4] ∧
    (adagradIterate 0.1 [2] 3 ([1], {})).2.gt = some [12] ∧
    (adagradIterate 0.1 [2] 1 ([1], {})).1.headI < 1 ∧
    (adagradIterate 0.1 [2] 2 ([1], {})).1.headI <
      (adagradIterate 0.1 [2] 1 ([1], {})).1.headI ∧
    (adagradIterate 0.1 [2] 3 ([1], {})).1.headI <
      (adagradIterate 0.1 [2] 2 ([1], {})).1.headI ∧
    (adagradIterate 0.1 [2] 1 ([1], {})).1.headI -
        (adagradIterate 0.1 [2] 2 ([1], {})).1.headI <
      1 - (adagradIterate 0.1 [2] 1 ([1], {})).1.headI ∧
    (adagradIterate 0.1 [2] 2 ([1], {})).1.headI -
        (adagradIterate 0.1 [2] 3 ([1], {})).1.headI <
      (adagradIterate 0.1 [2] 1 ([1], {})).1.headI -
        (adagradIterate 0.1 [2] 2 ([1], {})).1.headI := by
  have s1 : adagradUpdateImpl (0.1 : ℝ) {} [1] [2] =
      ([1 - 0.1 * 2 / (Real.sqrt 4 + 1e-8)], ⟨1e-8, some [4]⟩) := by
    norm_num [adagradUpdateImpl, zipWith3]
  have s2 : adagradUpdateImpl (0.1 : ℝ) ⟨1e-8, some [4]⟩
      [1 - 0.1 * 2 / (Real.sqrt 4 + 1e-8)] [2] =
      ([1 - 0.1 * 2 / (Real.sqrt 4 + 1e-8)
          - 0.1 * 2 / (Real.sqrt 8 + 1e-8)], ⟨1e-8, some [8]⟩) := by
    norm_num [adagradUpdateImpl, zipWith3]
  have s3 : adagradUpdateImpl (0.1 : ℝ) ⟨1e-8, some [8]⟩
      [1 - 0.1 * 2 / (Real.sqrt 4 + 1e-8)
        - 0.1 * 2 / (Real.sqrt 8 + 1e-8)] [2] =
      ([1 - 0.1 * 2 / (Real.sqrt 4 + 1e-8)
          - 0.1 * 2 / (Real.sqrt 8 + 1e-8)
          - 0.1 * 2 / (Real.sqrt 12 + 1e-8)], ⟨1e-8, some [12]⟩) := by
    norm_num [adagradUpdateImpl, zipWith3]
  have c2 : adagradUpdateImpl (0.1 : ℝ)
      (adagradUpdateImpl (0.1 : ℝ) {} [1] [2]).2
      (adagradUpdateImpl (0.1 : ℝ) {} [1] [2]).1 [2] =
      ([1 - 0.1 * 2 / (Real.sqrt 4 + 1e-8)
          - 0.1 * 2 / (Real.sqrt 8 + 1e-8)], ⟨1e-8, some [8]⟩) := by
    rw [s1]; exact s2
  have i1 : adagradIterate 0.1 [2] 1 ([1], {}) =
      ([1 - 0.1 * 2 / (Real.sqrt 4 + 1e-8)], ⟨1e-8, some [4]⟩) := s1
  have i2 : adagradIterate 0.1 [2] 2 ([1], {}) =
      ([1 - 0.1 * 2 / (Real.sqrt 4 + 1e-8)
          - 0.1 * 2 / (Real.sqrt 8 + 1e-8)], ⟨1e-8, some [8]⟩) := c2
  have i3 : adagradIterate 0.1 [2] 3 ([1], {}) =
      ([1 - 0.1 * 2 / (Real.sqrt 4 + 1e-8)
          - 0.1 * 2 / (Real.sqrt 8 + 1e-8)
          - 0.1 * 2 / (Real.sqrt 12 + 1e-8)], ⟨1e-8, some [12]⟩) := by
    show adagradUpdateImpl (0.1 : ℝ)
        (adagradUpdateImpl (0.1 : ℝ)
          (adagradUpdateImpl (0.1 : ℝ) {} [1] [2]).2
          (adagradUpdateImpl (0.1 : ℝ) {} [1] [2]).1 [2]).2
        (adagradUpdateImpl (0.1 : ℝ)
          (adagradUpdateImpl (0.1 : ℝ) {} [1] [2]).2
          (adagradUpdateImpl (0.1 : ℝ) {} [1] [2]).1 [2]).1 [2] = _
    rw [c2]; exact s3
  rw [i1, i2, i3]
  have h48 : Real.sqrt 4 < Real.sqrt 8 :=
    Real.sqrt_lt_sqrt (by norm_num) (by norm_num)
  have h812 : Real.sqrt 8 < Real.sqrt 12 :=
    Real.sqrt_lt_sqrt (by norm_num) (by norm_num)
  have h4nn : (0 : ℝ) ≤ Real.sqrt 4 := Real.sqrt_nonneg 4
  have hd1 : (0 : ℝ) < 0.1 * 2 / (Real.sqrt 4 + 1e-8) := by positivity
  have hd2 : (0 : ℝ) < 0.1 * 2 / (Real.sqrt 8 + 1e-8) := by positivity
  have hd3 : (0 : ℝ) < 0.1 * 2 / (Real.sqrt 12 + 1e-8) := by positivity
  have h21 : 0.1 * 2 / (Real.sqrt 8 + 1e-8) <
      0.1 * 2 / (Real.sqrt 4 + 1e-8) :=
    div_lt_div_of_pos_left (by norm_num) (by positivity) (by linarith)
  have h32 : 0.1 * 2 / (Real.sqrt 12 + 1e-8) <
      0.1 * 2 / (Real.sqrt 8 + 1e-8) :=
    div_lt_div_of_pos_left (by norm_num) (by positivity) (by linarith)
  refine ⟨rfl, rfl, ?_, ?_, ?_, ?_, ?_⟩ <;>
    simp only [List.headI] <;> linarith

theorem zipWith_sgd_zero (eta : ℝ) (params grads : List ℝ)
    (hlen : grads.length = params.length) (hz : ∀ g ∈ grads, g = 0) :
    List.zipWith (fun p g => p - eta * g) params grads = params := by
  induction params generalizing grads with
  | nil =>
    cases grads with
    | nil => rfl
    | cons g gs => simp at hlen
  | cons p pss ih =>
    cases grads with
    | nil => simp at hlen
    | cons g gs =>
      have hg : g = 0 := hz g (List.mem_cons_self g gs)
      simp only [List.zipWith_cons_cons, hg, mul_zero, sub_zero]
      rw [ih gs (by simpa using hlen)
        (fun x hx => hz x (List.mem_cons_of_mem _ hx))]

/-- C8: for every learning rate `eta > 0` and every parameter buffer, an
`Sgd` update with all-zero gradients leaves every parameter value unchanged
(per-element rule `param -= eta * grad`), and `Sgd`'s `parseParams` and
`resetStats` are no-ops. -/
theorem sgd_zero_gradient (eta : ℝ) (heta : 0 < eta)
    (params grads ps : List ℝ) (hlen : grads.length = params.length)
    (hz : ∀ g ∈ grads, g = 0) :
    (sgdUpdateImpl eta () params grads).1 = params ∧
    sgdParseParams ps () = () ∧ sgdResetStats () = () :=
  ⟨zipWith_sgd_zero eta params grads hlen hz, rfl, rfl⟩

/-- Witness for C8 at `eta = 1`, `params = [2, 3]`, `grads = [0, 0]`. -/
theorem sgd_zero_gradient_witness :
    (0 : ℝ) < 1 ∧ ([0, 0] : List ℝ).length = ([2, 3] : List ℝ).length ∧
    (∀ g ∈ ([0, 0] : List ℝ), g = 0) ∧
    ((sgdUpdateImpl 1 () [2, 3] [0, 0]).1 = [2, 3] ∧
     sgdParseParams [7] () = () ∧ sgdResetStats () = ()) :=
  ⟨by norm_num, rfl, by simp,
    sgd_zero_gradient 1 (by norm_num) [2, 3] [0, 0] [7] rfl (by simp)⟩

/-- C4: persisting the per-shard auxiliary buffers and reloading them into
a fresh optimizer reproduces bit-identical state on every shard — the
scattered shard lengths match the requested partition and the
concatenation is unchanged for any partition of the same total length, and
with the original partition every shard is reproduced exactly; for `Adam`
this covers `mt`, `vt`, and the step counter `t`, which is replicated
identically to every shard. -/
theorem save_load_roundtrip (gts mts vts : List (List ℝ)) (t : ℕ)
    (lens : List ℕ) (hlen : lens.sum = (adagradSave gts).length)
    (hmv : mts.map List.length = vts.map List.length) :
    (adagradLoad (adagradSave gts) lens).map List.length = lens ∧
    gatherShards (adagradLoad (adagradSave gts) lens) = adagradSave gts ∧
    adagradLoad (adagradSave gts) (gts.map List.length) = gts ∧
    adamLoad (adamSave mts vts t) (mts.map List.length) =
      (mts, vts, List.replicate mts.length t) := by
  refine ⟨scatterShards_length_eq _ _ hlen.symm,
    join_scatterShards _ _ hlen.symm, scatterShards_join gts, ?_⟩
  simp only [adamLoad, adamSave, List.length_map]
  rw [scatterShards_join, hmv, scatterShards_join]

/-- Witness for C4 at two shards `[[1], [2]]` (with `mt = [[1], [2]]`,
`vt = [[3], [4]]`, `t = 5`) and the load-time partition `[1, 1]`. -/
theorem save_load_roundtrip_witness :
    ([1, 1] : List ℕ).sum = (adagradSave [[1], [2]]).length ∧
    ([[1], [2]] : List (List ℝ)).map List.length =
      ([[3], [4]] : List (List ℝ)).map List.length ∧
    ((adagradLoad (adagradSave [[1], [2]]) [1, 1]).map List.length =
       [1, 1] ∧
     gatherShards (adagradLoad (adagradSave [[1], [2]]) [1, 1]) =
       adagradSave [[1], [2]] ∧
     adagradLoad (adagradSave [[1], [2]])
       (([[1], [2]] : List (List ℝ)).map List.length) = [[1], [2]] ∧
     adamLoad (adamSave [[1], [2]] [[3], [4]] 5)
       (([[1], [2]] : List (List ℝ)).map List.length) =
       ([[1], [2]], [[3], [4]],
        List.replicate ([[1], [2]] : List (List ℝ)).length 5)) :=
  ⟨rfl, rfl, save_load_roundtrip [[1], [2]] [[1], [2]] [[3], [4]] 5 [1, 1]
    rfl rfl⟩

/-- C9: a failing `load` surfaces the error to the caller without partially
mutating auxiliary state — unavailable storage and a persisted sequence
whose length does not match the shard layout both return an error (so no
shard is touched), and a successful `load` fully repopulates every shard:
the shard lengths match the layout and their concatenation is exactly the
persisted sequence. -/
theorem load_error_atomicity (lens : List ℕ) (flat : List ℝ)
    (out : List (List ℝ)) :
    loadChecked none lens = .error .storageUnavailable ∧
    (flat.length ≠ lens.sum →
      loadChecked (some flat) lens = .error .corruptPersistedSequence) ∧
    (loadChecked (some flat) lens = .ok out →
      out.map List.length = lens ∧ out.flatten = flat) := by
  refine ⟨rfl, ?_, ?_⟩
  · intro h
    simp [loadChecked, h]
  · intro h
    by_cases hl : flat.length = lens.sum
    · simp only [loadChecked, hl, if_pos, Except.ok.injEq] at h
      rw [← h]
      exact ⟨scatterShards_length_eq _ _ hl, join_scatterShards _ _ hl⟩
    · simp [loadChecked, hl] at h

/-- Witness for C9: an undersized persisted sequence `[1]` against layout
`[1, 1]` fails, and the well-formed sequence `[1, 2]` loads fully. -/
theorem load_error_atomicity_witness :
    loadChecked none [1, 1] = .error .storageUnavailable ∧
    (([1] : List ℝ).length ≠ ([1, 1] : List ℕ).sum ∧
     loadChecked (some [1]) [1, 1] = .error .corruptPersistedSequence) ∧
    (loadChecked (some [1, 2]) [1, 1] = .ok [[1], [2]] ∧
     ([[1], [2]] : List (List ℝ)).map List.length = [1, 1] ∧
     ([[1], [2]] : List (List ℝ)).flatten = [1, 2]) :=
  ⟨(load_error_atomicity [1, 1] [1] []).1,
   ⟨by decide, (load_error_atomicity [1, 1] [1] []).2.1 (by decide)⟩,
   ⟨rfl, (load_error_atomicity [1, 1] [1, 2] [[1], [2]]).2.2 rfl⟩⟩

/-- C7: after a lifecycle event with `state.reset = true`, all auxiliary
state is zeroed and Adam's step counter `t` is reset to 0, so the next
`update` on any `(params, grads)` pair (whose allocated auxiliary buffers
shadow `params`, per the §3 length invariant) equals the first-step
`update` of a freshly constructed optimizer with the same configuration
(same hyperparameters, clipper, and learning rate). -/
theorem reset_equals_fresh (o : Optimizer AdamState) (ts : TrainingState)
    (params grads : List ℝ) (hreset : ts.reset = true)
    (hmt : ∀ l ∈ o.st.mt, l.length = params.length)
    (hvt : ∀ l ∈ o.st.vt, l.length = params.length) :
    (actAfterEpoch adamAlg o ts).st.t = 0 ∧
    (actAfterEpoch adamAlg o ts).st.mt =
      o.st.mt.map (fun l => List.replicate l.length 0) ∧
    (actAfterEpoch adamAlg o ts).st.vt =
      o.st.vt.map (fun l => List.replicate l.length 0) ∧
    update adamAlg (actAfterEpoch adamAlg o ts) params grads =
      update adamAlg
        ⟨ts.eta, o.clipper, { o.st with t := 0, mt := none, vt := none }⟩
        params grads := by
  have hepoch : actAfterEpoch adamAlg o ts =
      { o with eta := ts.eta, st := adamResetStats o.st } := by
    simp [actAfterEpoch, hreset, adamAlg]
  have key : ∀ gs, adamUpdateImpl ts.eta (adamResetStats o.st) params gs =
      adamUpdateImpl ts.eta { o.st with t := 0, mt := none, vt := none }
        params gs := by
    intro gs
    have hmt0 : (Option.map (fun l => List.replicate l.length (0 : ℝ))
          o.st.mt).getD (List.replicate params.length 0) =
        List.replicate params.length 0 := by
      cases hc : o.st.mt with
      | none => simp
      | some l => simp [hmt l (by simp [hc])]
    have hvt0 : (Option.map (fun l => List.replicate l.length (0 : ℝ))
          o.st.vt).getD (List.replicate params.length 0) =
        List.replicate params.length 0 := by
      cases hc : o.st.vt with
      | none => simp
      | some l => simp [hvt l (by simp [hc])]
    simp only [adamUpdateImpl, adamResetStats, hmt0, hvt0, Option.getD_none]
  refine ⟨by rw [hepoch]; rfl, by rw [hepoch]; rfl, by rw [hepoch]; rfl, ?_⟩
  rw [hepoch]
  simp only [update, adamAlg]
  rw [key]

/-- Witness for C7 at a previously-used optimizer (`t = 3`, allocated
one-element moment buffers) receiving a reset event. -/
theorem reset_equals_fresh_witness :
    (⟨2, true⟩ : TrainingState).reset = true ∧
    (∀ l ∈ ({ t := 3, mt := some [5], vt := some [6] } : AdamState).mt,
      l.length = ([1] : List ℝ).length) ∧
    (∀ l ∈ ({ t := 3, mt := some [5], vt := some [6] } : AdamState).vt,
      l.length = ([1] : List ℝ).length) ∧
    ((actAfterEpoch adamAlg
        ⟨1, none, { t := 3, mt := some [5], vt := some [6] }⟩
        ⟨2, true⟩).st.t = 0 ∧
     (actAfterEpoch adamAlg
        ⟨1, none, { t := 3, mt := some [5], vt := some [6] }⟩
        ⟨2, true⟩).st.mt =
       ({ t := 3, mt := some [5], vt := some [6] } : AdamState).mt.map
         (fun l => List.replicate l.length 0) ∧
     (actAfterEpoch adamAlg
        ⟨1, none, { t := 3, mt := some [5], vt := some [6] }⟩
        ⟨2, true⟩).st.vt =
       ({ t := 3, mt := some [5], vt := some [6] } : AdamState).vt.map
         (fun l => List.replicate l.length 0) ∧
     update adamAlg
        (actAfterEpoch adamAlg
          ⟨1, none, { t := 3, mt := some [5], vt := some [6] }⟩
          ⟨2, true⟩) [1] [2] =
       update adamAlg
        ⟨(⟨2, true⟩ : TrainingState).eta,
         (⟨1, none, { t := 3, mt := some [5], vt := some [6] }⟩ :
           Optimizer AdamState).clipper,
         { ({ t := 3, mt := some [5], vt := some [6] } : AdamState) with
             t := 0, mt := none, vt := none }⟩ [1] [2]) :=
  ⟨rfl, by simp, by simp,
    reset_equals_fresh ⟨1, none, { t := 3, mt := some [5], vt := some [6] }⟩
      ⟨2, true⟩ [1] [2] rfl (by simp) (by simp)⟩

/-- C6: `setParams` maps its flat positional argument list for `Adam` as
`[beta1?, beta2?, eps?, weightDecay?]`, each position independently
optional — provided positions overwrite the corresponding hyperparameter,
missing trailing values keep the defaults `beta1 = 0.9`, `beta2 = 0.999`,
`eps = 1e-8`, `weightDecay = 0`, and extra values beyond position 4 are
ignored; for `Adagrad` the mapping is `[eps?]` with default `1e-8`. -/
theorem parseParams_positional (ps : List ℝ) (s : AdamState)
    (sa : AdagradState) :
    adamParseParams ps s =
      { s with beta1 := ps.getD 0 s.beta1, beta2 := ps.getD 1 s.beta2,
               eps := ps.getD 2 s.eps, w := ps.getD 3 s.w } ∧
    adamParseParams ps s = adamParseParams (ps.take 4) s ∧
    adagradParseParams ps sa = { sa with eps := ps.getD 0 sa.eps } ∧
    adagradParseParams ps sa = adagradParseParams (ps.take 1) sa ∧
    ({} : AdamState).beta1 = 0.9 ∧ ({} : AdamState).beta2 = 0.999 ∧
    ({} : AdamState).eps = 1e-8 ∧ ({} : AdamState).w = 0 ∧
    ({} : AdagradState).eps = 1e-8 := by
  refine ⟨?_, ?_, ?_, ?_, rfl, rfl, rfl, rfl, rfl⟩ <;>
    rcases ps with _ | ⟨a, _ | ⟨b, _ | ⟨c, _ | ⟨d, rest⟩⟩⟩⟩ <;>
      simp [adamParseParams, adagradParseParams, List.getD]

end Marian
